import Mathlib

/-!
Verification of the sandbox scheduling and lifecycle subsystem of AlgoCoach:
the `WarmSandbox` class (runner-service/src/warmSandbox.ts) and the
`RunnerPool` scheduler class.  The TypeScript code is shallowly embedded:
the pool is a state machine driven by `submit` and `complete` events
(the two entry points of the single-writer event-loop sequence), and the
sandbox's `run` / `executeOnce` / `ensureContainerRunning` operations are
modelled as functions of the outcomes of their underlying subprocess calls.
-/

namespace AlgoCoach

/-! ## Sandbox errors (the `Error` objects thrown by warmSandbox.ts)

Errors carry a `message` and an optional attached `stderr` field
(`executeOnce` attaches the trimmed stderr; `execFileAsync` attaches the
child stderr; other errors, e.g. a spawn `error` event, carry none). -/

structure SbError where
  message : String
  stderr : Option String
deriving Repr, DecidableEq

/-- The signature matched by `WarmSandbox.run` in the captured error text. -/
def noSuchContainerSig : String := "No such container"

/-- Substring containment on character lists (JS `String.includes`). -/
def containsList (hay pat : List Char) : Bool :=
  match hay with
  | [] => pat.isEmpty
  | _ :: t => pat.isPrefixOf hay || containsList t pat

/-- `s.includes('No such container')` from warmSandbox.ts line 139. -/
def hasNoSuchContainer (s : String) : Bool :=
  containsList s.toList noSuchContainerSig.toList

/-- How Node's string interpolation prints the exit code of a closed
process: the number, or `null` when the process was killed by a signal
(e.g. the timeout's SIGKILL). -/
def exitCodeText : Option Int → String
  | some n => toString n
  | none => "null"

/-- JS `String.prototype.trim`: strip leading and trailing whitespace. -/
def strTrim (s : String) : String :=
  ⟨(((s.toList.dropWhile Char.isWhitespace).reverse.dropWhile
      Char.isWhitespace).reverse)⟩

/-- `WarmSandbox.executeOnce` (warmSandbox.ts lines 88-132), as a function
of the underlying subprocess outcome: its close code (`none` = killed by a
signal, as after the timeout's SIGKILL), the raw captured stderr bytes and
the raw captured stdout bytes.  On close code 0 it returns the captured
stdout; otherwise it throws an error whose message is the trimmed stderr,
or the generic exit-status message when the trimmed stderr is empty, with
the trimmed stderr attached. -/
def executeOnce (code : Option Int) (stderrRaw stdoutRaw : String) :
    Except SbError String :=
  if code = some 0 then .ok stdoutRaw
  else
    let stderr := strTrim stderrRaw
    .error
      { message :=
          if stderr ≠ "" then stderr
          else "Warm sandbox exited with status " ++ exitCodeText code
        stderr := some stderr }

/-- `WarmSandbox.run` (warmSandbox.ts lines 134-145), as a function of the
outcomes of the (at most) two `ensureContainerRunning` calls and the (at
most) two `executeOnce` calls it can make.  The second component counts how
many `executeOnce` attempts were actually made. -/
def runSandbox (ensure1 : Except SbError Unit) (exec1 : Except SbError String)
    (ensure2 : Except SbError Unit) (exec2 : Except SbError String) :
    Except SbError String × Nat :=
  match ensure1 with
  | .error e => (.error e, 0)
  | .ok _ =>
    match exec1 with
    | .ok out => (.ok out, 1)
    | .error e =>
      if hasNoSuchContainer (e.stderr.getD "") then
        match ensure2 with
        | .error e2 => (.error e2, 1)
        | .ok _ => (exec2, 2)
      else (.error e, 1)

/-! ## Collapsing of concurrent `ensureContainerRunning` calls

`WarmSandbox.ensureContainerRunning` (warmSandbox.ts lines 42-86) stores
the in-flight readiness operation in `this.ensuring`; a caller that finds
it set awaits the same promise, and the promise's `finally` clears the
field.  Because the method body runs synchronously on the event loop from
entry to the `return` (the async IIFE suspends at its first `await`, after
the probe has been issued), each call is one atomic step of this state
machine.  Operations are numbered so that the outcome every caller awaits
is identified by the operation id it was handed. -/

structure EnsureState where
  /-- `this.ensuring`: the id of the in-flight operation, if any. -/
  ensuring : Option Nat
  /-- how many underlying check-and-repair operations were started
  (each started operation issues exactly one `docker inspect` probe). -/
  probes : Nat
  /-- id supply for operations. -/
  nextOp : Nat
deriving Repr, DecidableEq

/-- One call to `ensureContainerRunning`: returns the new state and the id
of the operation whose outcome this caller awaits. -/
def ensureCall (s : EnsureState) : EnsureState × Nat :=
  match s.ensuring with
  | some p => (s, p)
  | none =>
    ({ ensuring := some s.nextOp, probes := s.probes + 1, nextOp := s.nextOp + 1 },
      s.nextOp)

/-- `c` back-to-back (overlapping) calls to `ensureContainerRunning`, with
no completion in between; returns the final state and each caller's
awaited operation id, in call order. -/
def ensureCalls : Nat → EnsureState → EnsureState × List Nat
  | 0, s => (s, [])
  | c + 1, s =>
    let (s1, h) := ensureCall s
    let (s2, hs) := ensureCalls c s1
    (s2, h :: hs)

/-- The `finally` handler of the in-flight operation: clears
`this.ensuring` (on success and on failure alike). -/
def ensureComplete (s : EnsureState) : EnsureState :=
  { s with ensuring := none }

/-- How many `docker run` creation calls one started check-and-repair
operation makes (warmSandbox.ts lines 61-79): none when the probe
reports the container running, exactly one otherwise. -/
def ensureCreations (running : Bool) : Nat :=
  if running then 0 else 1

/-! ## The RunnerPool scheduler (src/unnamed/part_000)

Jobs receive sequential ids in submission order (id `k` = the `(k+1)`-st
job ever submitted), so FIFO facts can be read off the ids.  `assigned`
is the append-only log of every assignment ever made (the in-flight ones
are also in `inFlight`); it records the worker index the rotation cursor
selected, the start time and the queue wait charged at assignment. -/

structure Job where
  id : Nat
  enqueuedAt : Nat
deriving Repr, DecidableEq

structure Assignment where
  jobId : Nat
  workerIndex : Nat
  start : Nat
  queueWait : Nat
deriving Repr, DecidableEq

structure PoolState where
  poolSize : Nat
  queue : List Job
  active : Nat
  cursor : Nat
  totalRuns : Nat
  totalRunTimeMs : Nat
  totalQueueWaitMs : Nat
  errorCount : Nat
  lastRunAt : Option Nat
  /-- id supply: also the number of jobs ever submitted. -/
  nextId : Nat
  /-- number of job futures resolved so far (each completion handler
  resolves or rejects exactly one job's promise). -/
  resolved : Nat
  inFlight : List Assignment
  assigned : List Assignment
deriving Repr, DecidableEq

def initState (n : Nat) : PoolState :=
  { poolSize := n, queue := [], active := 0, cursor := 0, totalRuns := 0,
    totalRunTimeMs := 0, totalQueueWaitMs := 0, errorCount := 0,
    lastRunAt := none, nextId := 0, resolved := 0, inFlight := [], assigned := [] }

/-- The `RunnerPool` constructor (part_000 lines 37-43): throws when the
worker array is empty, otherwise yields the initial pool state over those
workers. -/
def mkRunnerPool (workers : List String) : Except String PoolState :=
  if workers.length = 0 then .error "RunnerPool requires at least one worker."
  else .ok (initState workers.length)

/-- `RunnerPool.startJob` up to the asynchronous part (part_000 lines
85-113): `nextWorker()` reads the cursor and advances it modulo the pool
size, `active` is incremented, the queue wait (`now - enqueuedAt`) is
accrued, and the job becomes an in-flight assignment.  The completion
bookkeeping of the `.finally` handler is the separate `complete` event. -/
def startJob (now : Nat) (job : Job) (s : PoolState) : PoolState :=
  let index := s.cursor
  let waitMs := now - job.enqueuedAt
  let a : Assignment := ⟨job.id, index, now, waitMs⟩
  { s with
    cursor := (s.cursor + 1) % s.poolSize
    active := s.active + 1
    totalQueueWaitMs := s.totalQueueWaitMs + waitMs
    inFlight := s.inFlight ++ [a]
    assigned := s.assigned ++ [a] }

/-- The loop body of `RunnerPool.drain` (part_000 lines 75-83), with
explicit fuel.  Each iteration shifts one job off the queue, so the
original queue length is enough fuel for the `while` loop to run to its
exit condition. -/
def drainFuel : Nat → Nat → PoolState → PoolState
  | 0, _, s => s
  | fuel + 1, now, s =>
    match s.queue with
    | [] => s
    | job :: rest =>
      if s.active < s.poolSize then
        drainFuel fuel now (startJob now job { s with queue := rest })
      else s

/-- `RunnerPool.drain`: while the queue is non-empty and `active` is below
the pool size, shift the head job and start it. -/
def drain (now : Nat) (s : PoolState) : PoolState :=
  drainFuel s.queue.length now s

/-- `RunnerPoolStats` as returned by `getStats` (part_000 lines 60-73);
the averages are rationals (JS number division), `0` when no run has
finished. -/
structure RunnerPoolStats where
  poolSize : Nat
  activeWorkers : Nat
  queueLength : Nat
  totalRuns : Nat
  avgRunMs : ℚ
  avgQueueWaitMs : ℚ
  errorCount : Nat
  lastRunAt : Option Nat
deriving Repr, DecidableEq

def getStats (s : PoolState) : RunnerPoolStats :=
  { poolSize := s.poolSize
    activeWorkers := s.active
    queueLength := s.queue.length
    totalRuns := s.totalRuns
    avgRunMs := if s.totalRuns = 0 then 0 else (s.totalRunTimeMs : ℚ) / s.totalRuns
    avgQueueWaitMs :=
      if s.totalRuns = 0 then 0 else (s.totalQueueWaitMs : ℚ) / s.totalRuns
    errorCount := s.errorCount
    lastRunAt := s.lastRunAt }

/-- The two entry points of the scheduler's single-writer sequence:
`submit now` is `RunnerPool.run` (part_000 lines 45-58) — enqueue a job
stamped `now` and drain; `complete j ok now` is the settlement of job
`j`'s worker promise (lines 98-112) — on failure (`ok = false`) bump the
error counter; in both cases resolve the job's future, decrement `active`,
record the duration, bump `totalRuns`, stamp `lastRunAt` and drain. -/
inductive PoolEvent
  | submit (now : Nat)
  | complete (jobId : Nat) (ok : Bool) (now : Nat)
deriving Repr, DecidableEq

def applyEvent (e : PoolEvent) (s : PoolState) : PoolState :=
  match e with
  | .submit now =>
    drain now
      { s with queue := s.queue ++ [⟨s.nextId, now⟩], nextId := s.nextId + 1 }
  | .complete j ok now =>
    match s.inFlight.find? (fun a => a.jobId == j) with
    | none => s
    | some a =>
      drain now
        { s with
          inFlight := s.inFlight.eraseP (fun a => a.jobId == j)
          active := s.active - 1
          totalRuns := s.totalRuns + 1
          totalRunTimeMs := s.totalRunTimeMs + (now - a.start)
          errorCount := s.errorCount + (if ok then 0 else 1)
          lastRunAt := some now
          resolved := s.resolved + 1 }

/-- The pool state after a sequence of events, starting from a fresh pool
over `n` workers. -/
def runPool (n : Nat) (events : List PoolEvent) : PoolState :=
  events.foldl (fun s e => applyEvent e s) (initState n)

/-- The scheduler's state invariant, established by induction over event
sequences.  `assigned.length` is the number of assignments ever made; job
ids are handed out in submission order, assignments take the queue head,
and the cursor is advanced by one modulo the pool size per assignment, so
the logs are fully determined as ranges. -/
structure PoolInv (s : PoolState) : Prop where
  activeEq : s.active = s.inFlight.length
  activeLe : s.active ≤ s.poolSize
  runsEq : s.totalRuns + s.inFlight.length = s.assigned.length
  assignedIds : s.assigned.map Assignment.jobId = List.range s.assigned.length
  queueIds : s.queue.map Job.id = List.range' s.assigned.length s.queue.length
  nextIdEq : s.nextId = s.assigned.length + s.queue.length
  cursorEq : s.cursor = s.assigned.length % s.poolSize
  workerIdxEq : s.assigned.map Assignment.workerIndex
      = (List.range s.assigned.length).map (fun j => j % s.poolSize)
  lastRunIff : s.lastRunAt = none ↔ s.totalRuns = 0
  queueWaitEq : s.totalQueueWaitMs = (s.assigned.map Assignment.queueWait).sum
  resolvedEq : s.resolved = s.totalRuns

/-! ## Theorems: sandbox side -/

/-- If a readiness operation is already in flight, every further call to
`ensureContainerRunning` attaches to it: the state does not change and
each caller is handed the in-flight operation's id. -/
theorem ensureCalls_pending (c : Nat) (s : EnsureState) (p : Nat)
    (h : s.ensuring = some p) : ensureCalls c s = (s, List.replicate c p) := by
  induction c with
  | zero => rfl
  | succ n ih => simp [ensureCalls, ensureCall, h, ih, List.replicate_succ]

/-- C7: `c ≥ 1` overlapping `ensureContainerRunning` calls on a sandbox
with no check in flight collapse into a single underlying check-and-repair
operation: every caller is handed the same operation id, exactly one
"is it running" probe is issued (and that one operation makes at most one
creation call, so no duplicate creation occurs), all callers observe the
one operation's outcome — including a failure, which thus propagates to
every waiting caller — and the in-flight handle is cleared on completion,
so the next call starts a fresh operation. -/
theorem ensureContainerRunning_collapses (c : Nat) (s0 : EnsureState)
    (outcome : Nat → Except SbError Unit) (running : Bool)
    (hc : 1 ≤ c) (h0 : s0.ensuring = none) :
    (ensureCalls c s0).2 = List.replicate c s0.nextOp
    ∧ (ensureCalls c s0).1.probes = s0.probes + 1
    ∧ ensureCreations running ≤ 1
    ∧ (∀ h ∈ (ensureCalls c s0).2, outcome h = outcome s0.nextOp)
    ∧ (ensureComplete (ensureCalls c s0).1).ensuring = none
    ∧ (ensureCall (ensureComplete (ensureCalls c s0).1)).2 = s0.nextOp + 1
    ∧ (ensureCall (ensureComplete (ensureCalls c s0).1)).1.probes
        = s0.probes + 2 := by
  obtain ⟨k, rfl⟩ : ∃ k, c = k + 1 := ⟨c - 1, by omega⟩
  have h1 : ensureCall s0 =
      ({ ensuring := some s0.nextOp, probes := s0.probes + 1,
         nextOp := s0.nextOp + 1 }, s0.nextOp) := by
    simp [ensureCall, h0]
  have key : ensureCalls (k + 1) s0 =
      ({ ensuring := some s0.nextOp, probes := s0.probes + 1,
         nextOp := s0.nextOp + 1 }, List.replicate (k + 1) s0.nextOp) := by
    rw [List.replicate_succ]
    simp only [ensureCalls, h1]
    have h2 := ensureCalls_pending k
      { ensuring := some s0.nextOp, probes := s0.probes + 1,
        nextOp := s0.nextOp + 1 } s0.nextOp rfl
    simp [h2]
  refine ⟨by rw [key], by rw [key], by cases running <;> simp [ensureCreations],
    ?_, by rw [key]; rfl, by rw [key]; rfl, by rw [key]; rfl⟩
  intro h hmem
  rw [key] at hmem
  rw [List.eq_of_mem_replicate hmem]

/-- Witness for C7: three overlapping calls on a fresh sandbox all await
operation 0 and issue one probe. -/
theorem ensureContainerRunning_collapses_witness :
    (ensureCalls 3 ⟨none, 0, 0⟩).2 = List.replicate 3 0
    ∧ (ensureCalls 3 ⟨none, 0, 0⟩).1.probes = 0 + 1 := by
  have h := ensureContainerRunning_collapses 3 ⟨none, 0, 0⟩
    (fun _ => Except.ok ()) true (by decide) rfl
  exact ⟨h.1, h.2.1⟩

/-- C3: `WarmSandbox.run` first ensures readiness, then executes once.
A readiness failure propagates with no execution attempt.  A first
execution success is returned after exactly one attempt.  A first
execution failure without the "no such container" signature propagates
unmodified after exactly one attempt.  With the signature, exactly one
recovery happens: readiness is re-ensured and a second attempt's outcome
(success or failure) propagates unmodified; if the re-ensure itself fails,
that failure propagates with no second attempt.  In every case at most
two execution attempts are made. -/
theorem run_recovery_policy (ensure1 : Except SbError Unit)
    (exec1 : Except SbError String) (ensure2 : Except SbError Unit)
    (exec2 : Except SbError String) :
    (runSandbox ensure1 exec1 ensure2 exec2).2 ≤ 2
    ∧ (∀ f, ensure1 = .error f →
        runSandbox ensure1 exec1 ensure2 exec2 = (.error f, 0))
    ∧ (∀ o, ensure1 = .ok () → exec1 = .ok o →
        runSandbox ensure1 exec1 ensure2 exec2 = (.ok o, 1))
    ∧ (∀ f, ensure1 = .ok () → exec1 = .error f →
        hasNoSuchContainer (f.stderr.getD "") = false →
        runSandbox ensure1 exec1 ensure2 exec2 = (.error f, 1))
    ∧ (∀ f, ensure1 = .ok () → exec1 = .error f →
        hasNoSuchContainer (f.stderr.getD "") = true → ensure2 = .ok () →
        runSandbox ensure1 exec1 ensure2 exec2 = (exec2, 2))
    ∧ (∀ f g, ensure1 = .ok () → exec1 = .error f →
        hasNoSuchContainer (f.stderr.getD "") = true → ensure2 = .error g →
        runSandbox ensure1 exec1 ensure2 exec2 = (.error g, 1)) := by
  refine ⟨?_, ?_, ?_, ?_, ?_, ?_⟩
  · rcases ensure1 with f | u
    · simp [runSandbox]
    · rcases exec1 with f | o
      · simp only [runSandbox]
        split
        · rcases ensure2 with g | v <;> simp
        · simp
      · simp [runSandbox]
  · rintro f rfl; rfl
  · rintro o rfl rfl; rfl
  · rintro f rfl rfl hsig; simp [runSandbox, hsig]
  · rintro f rfl rfl hsig rfl; simp [runSandbox, hsig]
  · rintro f g rfl rfl hsig rfl; simp [runSandbox, hsig]

/-- Witness for C3: a first failure carrying the "No such container"
signature triggers exactly one recovery, and the second attempt's failure
(`boom`) propagates unmodified after exactly two attempts. -/
theorem run_recovery_policy_witness :
    runSandbox (.ok ()) (.error ⟨"x", some "No such container: warm-1"⟩)
        (.ok ()) (.error ⟨"boom", some "boom"⟩)
      = (.error ⟨"boom", some "boom"⟩, 2) :=
  (run_recovery_policy (.ok ()) (.error ⟨"x", some "No such container: warm-1"⟩)
      (.ok ()) (.error ⟨"boom", some "boom"⟩)).2.2.2.2.1
    ⟨"x", some "No such container: warm-1"⟩ rfl rfl (by decide) rfl

/-- C8: on close code 0, `executeOnce` returns exactly the captured
output.  On any other close (including the `null` code of the timeout's
forced SIGKILL), it fails with the one `ExecutionFailed` error shape:
the trimmed captured error text as message (attached as `stderr`), or the
generic nonzero-exit message when the error text is empty; a killed
process with non-empty error text is indistinguishable from an ordinary
non-zero exit. -/
theorem executeOnce_errors (code : Option Int) (stderrRaw stdoutRaw : String) :
    (code = some 0 → executeOnce code stderrRaw stdoutRaw = .ok stdoutRaw)
    ∧ (code ≠ some 0 → ∃ e : SbError,
        executeOnce code stderrRaw stdoutRaw = .error e
        ∧ e.stderr = some (strTrim stderrRaw)
        ∧ (strTrim stderrRaw ≠ "" → e.message = strTrim stderrRaw)
        ∧ (strTrim stderrRaw = "" →
            e.message = "Warm sandbox exited with status " ++ exitCodeText code))
    ∧ (strTrim stderrRaw ≠ "" →
        executeOnce none stderrRaw stdoutRaw
          = executeOnce (some 1) stderrRaw stdoutRaw) := by
  refine ⟨fun h => by simp [executeOnce, h], fun h => ?_, fun h => ?_⟩
  · refine ⟨{ message := if strTrim stderrRaw ≠ "" then strTrim stderrRaw
                else "Warm sandbox exited with status " ++ exitCodeText code,
              stderr := some (strTrim stderrRaw) }, ?_, rfl, ?_, ?_⟩
    · simp [executeOnce, h]
    · intro h2; simp [h2]
    · intro h2; simp [h2]
  · simp [executeOnce, h]

/-- Witness for C8: clean exit returns the output; a SIGKILLed process
with error text `boom` yields the same failure as exit status 1. -/
theorem executeOnce_errors_witness :
    executeOnce (some 0) "x" "out" = .ok "out"
    ∧ executeOnce none "boom" "" = executeOnce (some 1) "boom" "" :=
  ⟨(executeOnce_errors (some 0) "x" "out").1 rfl,
   (executeOnce_errors none "boom" "").2.2 (by decide)⟩

/-- C9: the `RunnerPool` constructor throws exactly on an empty worker
array — and then no pool state ever exists, so no job can be submitted;
every non-empty worker array yields the initial pool state. -/
theorem runnerPool_ctor (workers : List String) :
    (workers = [] →
      mkRunnerPool workers = .error "RunnerPool requires at least one worker.")
    ∧ (workers ≠ [] → mkRunnerPool workers = .ok (initState workers.length)) := by
  constructor
  · rintro rfl; rfl
  · intro h
    simp [mkRunnerPool, List.length_eq_zero, h]

/-- Witness for C9: the empty pool is rejected, a one-worker pool is
accepted. -/
theorem runnerPool_ctor_witness :
    mkRunnerPool [] = .error "RunnerPool requires at least one worker."
    ∧ mkRunnerPool ["warm-1"] = .ok (initState 1) :=
  ⟨(runnerPool_ctor []).1 rfl, (runnerPool_ctor ["warm-1"]).2 (by decide)⟩


/-! ## Theorems: scheduler side -/

/-- `List.range'` with the last element split off (step 1). -/
theorem range'_snoc (a n : Nat) :
    List.range' a (n + 1) = List.range' a n ++ [a + n] := by
  have h := @List.range'_concat 1 a n
  rwa [one_mul] at h

/-- A fresh pool satisfies the invariant. -/
theorem poolInv_init (n : Nat) : PoolInv (initState n) := by
  constructor <;> simp [initState]

/-- `startJob` preserves the invariant when called, as `drain` does, on
the head of the queue while a worker slot is free. -/
theorem poolInv_startJob (s : PoolState) (job : Job) (rest : List Job)
    (now : Nat) (inv : PoolInv s) (hq : s.queue = job :: rest)
    (hact : s.active < s.poolSize) :
    PoolInv (startJob now job { s with queue := rest }) := by
  have hQ := inv.queueIds
  rw [hq] at hQ
  simp only [List.map_cons, List.length_cons] at hQ
  rw [List.range'_succ] at hQ
  obtain ⟨hjob, hrest⟩ := (List.cons.injEq _ _ _ _).mp hQ
  constructor
  · simp [startJob, inv.activeEq]
  · simp only [startJob]
    omega
  · have := inv.runsEq
    simp [startJob]
    omega
  · simp [startJob, inv.assignedIds, hjob, List.range_succ]
  · simpa [startJob] using hrest
  · have h1 := inv.nextIdEq
    rw [hq] at h1
    simp only [List.length_cons] at h1
    simp [startJob]
    omega
  · simp only [startJob]
    simp [inv.cursorEq, Nat.mod_add_mod]
  · simp [startJob, List.range_succ, inv.workerIdxEq, inv.cursorEq]
  · simpa [startJob] using inv.lastRunIff
  · simp [startJob, inv.queueWaitEq]
  · simpa [startJob] using inv.resolvedEq

/-- The drain loop preserves the invariant. -/
theorem poolInv_drainFuel (fuel now : Nat) (s : PoolState) (inv : PoolInv s) :
    PoolInv (drainFuel fuel now s) := by
  induction fuel generalizing s with
  | zero => exact inv
  | succ f ih =>
    rcases hq : s.queue with _ | ⟨job, rest⟩
    · simpa [drainFuel, hq] using inv
    · simp only [drainFuel, hq]
      split
      · next hlt => exact ih _ (poolInv_startJob s job rest now inv hq hlt)
      · exact inv

/-- The drain loop never touches the pool size, the completion counters,
the timestamps of finished runs, the resolution counter or the id
supply. -/
theorem drainFuel_frozen (fuel now : Nat) (s : PoolState) :
    (drainFuel fuel now s).poolSize = s.poolSize
    ∧ (drainFuel fuel now s).totalRuns = s.totalRuns
    ∧ (drainFuel fuel now s).totalRunTimeMs = s.totalRunTimeMs
    ∧ (drainFuel fuel now s).errorCount = s.errorCount
    ∧ (drainFuel fuel now s).lastRunAt = s.lastRunAt
    ∧ (drainFuel fuel now s).resolved = s.resolved
    ∧ (drainFuel fuel now s).nextId = s.nextId := by
  induction fuel generalizing s with
  | zero => exact ⟨rfl, rfl, rfl, rfl, rfl, rfl, rfl⟩
  | succ f ih =>
    rcases hq : s.queue with _ | ⟨job, rest⟩
    · simp [drainFuel, hq]
    · simp only [drainFuel, hq]
      split
      · simpa [startJob] using ih (startJob now job { s with queue := rest })
      · exact ⟨rfl, rfl, rfl, rfl, rfl, rfl, rfl⟩

/-- Each event of the scheduler's single-writer sequence preserves the
invariant. -/
theorem poolInv_applyEvent (e : PoolEvent) (s : PoolState) (inv : PoolInv s) :
    PoolInv (applyEvent e s) := by
  cases e with
  | submit now =>
    apply poolInv_drainFuel
    constructor
    · simpa using inv.activeEq
    · simpa using inv.activeLe
    · simpa using inv.runsEq
    · simpa using inv.assignedIds
    · simp only [List.map_append, List.map_cons, List.map_nil,
        List.length_append, List.length_cons, List.length_nil]
      rw [inv.queueIds, inv.nextIdEq]
      simp only [Nat.zero_add]
      rw [range'_snoc]
    · have h1 := inv.nextIdEq
      simp
      omega
    · simpa using inv.cursorEq
    · simpa using inv.workerIdxEq
    · simpa using inv.lastRunIff
    · simpa using inv.queueWaitEq
    · simpa using inv.resolvedEq
  | complete j ok now =>
    rcases hfind : s.inFlight.find? (fun a => a.jobId == j) with _ | a
    · simpa [applyEvent, hfind] using inv
    · simp only [applyEvent, hfind, drain]
      apply poolInv_drainFuel
      have hmem : a ∈ s.inFlight := List.mem_of_find?_eq_some hfind
      have hpa := List.find?_some hfind
      have hlen : (s.inFlight.eraseP (fun a => a.jobId == j)).length
          = s.inFlight.length - 1 :=
        List.length_eraseP_of_mem hmem hpa
      have hpos : 0 < s.inFlight.length := List.length_pos_of_mem hmem
      have hact := inv.activeEq
      have hle := inv.activeLe
      have hruns := inv.runsEq
      constructor
      · simp [hlen]
        omega
      · simp
        omega
      · simp [hlen]
        omega
      · simpa using inv.assignedIds
      · simpa using inv.queueIds
      · simpa using inv.nextIdEq
      · simpa using inv.cursorEq
      · simpa using inv.workerIdxEq
      · simp
      · simpa using inv.queueWaitEq
      · simp [inv.resolvedEq]

/-- The invariant holds in every reachable pool state. -/
theorem poolInv_runPool (n : Nat) (events : List PoolEvent) :
    PoolInv (runPool n events) := by
  suffices h : ∀ s, PoolInv s →
      PoolInv (events.foldl (fun s e => applyEvent e s) s) from
    h (initState n) (poolInv_init n)
  induction events with
  | nil => exact fun _ hs => hs
  | cons e es ih => exact fun s hs => ih _ (poolInv_applyEvent e s hs)

/-- No event changes the pool size. -/
theorem applyEvent_poolSize (e : PoolEvent) (s : PoolState) :
    (applyEvent e s).poolSize = s.poolSize := by
  cases e with
  | submit now => exact (drainFuel_frozen _ _ _).1
  | complete j ok now =>
    rcases hfind : s.inFlight.find? (fun a => a.jobId == j) with _ | a
    · simp [applyEvent, hfind]
    · simp only [applyEvent, hfind, drain]
      exact (drainFuel_frozen _ _ _).1

/-- A pool built over `n` workers keeps pool size `n` forever. -/
theorem runPool_poolSize (n : Nat) (events : List PoolEvent) :
    (runPool n events).poolSize = n := by
  suffices h : ∀ s,
      (events.foldl (fun s e => applyEvent e s) s).poolSize = s.poolSize from
    h (initState n)
  induction events with
  | nil => exact fun _ => rfl
  | cons e es ih => exact fun s => by rw [List.foldl_cons, ih, applyEvent_poolSize]

/-- C2: the count of concurrently active assignments never exceeds the
number of sandboxes, in every reachable state of every execution: the
drain pass only starts a job while `active` is below the pool size,
`active` is incremented at assignment and decremented at completion. -/
theorem active_le_poolSize (n : Nat) (events : List PoolEvent) :
    (runPool n events).active ≤ n := by
  have h := (poolInv_runPool n events).activeLe
  rwa [runPool_poolSize] at h

/-- Counterexample to C1: pool of 2 sandboxes; submit jobs 0 and 1,
job 1 (on sandbox 1) completes while job 0 (on sandbox 0) is still
running, then job 2 is submitted.  The rotation cursor has wrapped back
to sandbox 0, so the drain pass assigns job 2 to sandbox 0 even though
job 0 is still in flight there: two distinct jobs are concurrently in
flight on the same sandbox. -/
theorem perSandbox_exclusion_counterexample :
    ∃ a ∈ (runPool 2 [PoolEvent.submit 0, PoolEvent.submit 0,
        PoolEvent.complete 1 true 5, PoolEvent.submit 6]).inFlight,
    ∃ b ∈ (runPool 2 [PoolEvent.submit 0, PoolEvent.submit 0,
        PoolEvent.complete 1 true 5, PoolEvent.submit 6]).inFlight,
      a.jobId ≠ b.jobId ∧ a.workerIndex = b.workerIndex := by
  refine ⟨⟨0, 0, 0, 0⟩, by decide, ⟨2, 0, 6, 0⟩, by decide, by decide, rfl⟩

/-- C1 (amended): for pool size 1 the scheduler never has two assignments
in flight at once, so the single sandbox executes at most one job at a
time; for pool sizes ≥ 2 only the global bound `active ≤ poolSize` holds
(see the counterexample for a sandbox carrying two concurrent jobs). -/
theorem perSandbox_exclusion_poolSize_one (events : List PoolEvent) :
    (runPool 1 events).inFlight.length ≤ 1 := by
  have h := poolInv_runPool 1 events
  have h2 := h.activeLe
  rw [runPool_poolSize] at h2
  rw [← h.activeEq]
  exact h2

/-- C4: jobs are assigned in strict arrival (FIFO) order.  Job ids are
handed out in submission order, and the assignment log always reads
`0, 1, 2, …`: the `k`-th assignment ever made is the `k`-th job ever
submitted, so an earlier-submitted job is never assigned after a
later-submitted one.  (Completion order is unconstrained: `complete`
events may arrive in any order.) -/
theorem fifo_assignment (n : Nat) (events : List PoolEvent) :
    (runPool n events).assigned.map Assignment.jobId
      = List.range (runPool n events).assigned.length
    ∧ (∀ p q : Nat, p < q →
        ∀ a b : Assignment,
          (runPool n events).assigned[p]? = some a →
          (runPool n events).assigned[q]? = some b →
          a.jobId < b.jobId) := by
  have hA := (poolInv_runPool n events).assignedIds
  refine ⟨hA, fun p q hpq a b ha hb => ?_⟩
  have hpa : ((runPool n events).assigned.map Assignment.jobId)[p]?
      = some a.jobId := by
    rw [List.getElem?_map, ha]
    rfl
  have hqb : ((runPool n events).assigned.map Assignment.jobId)[q]?
      = some b.jobId := by
    rw [List.getElem?_map, hb]
    rfl
  rw [hA] at hpa hqb
  have hplt : p < (runPool n events).assigned.length := by
    by_contra hge
    push_neg at hge
    rw [List.getElem?_eq_none (by simpa using hge)] at hpa
    exact Option.noConfusion hpa
  have hqlt : q < (runPool n events).assigned.length := by
    by_contra hge
    push_neg at hge
    rw [List.getElem?_eq_none (by simpa using hge)] at hqb
    exact Option.noConfusion hqb
  simp [List.getElem?_range, hplt] at hpa
  simp [List.getElem?_range, hqlt] at hqb
  omega

/-- Witness for C4: with one sandbox, after submit / complete / submit the
first assignment carries an earlier job id than the second. -/
theorem fifo_assignment_witness :
    ∃ a b : Assignment,
      (runPool 1 [PoolEvent.submit 0, PoolEvent.complete 0 true 1,
          PoolEvent.submit 2]).assigned[0]? = some a
      ∧ (runPool 1 [PoolEvent.submit 0, PoolEvent.complete 0 true 1,
          PoolEvent.submit 2]).assigned[1]? = some b
      ∧ a.jobId < b.jobId := by
  refine ⟨⟨0, 0, 0, 0⟩, ⟨1, 0, 2, 0⟩, by decide, by decide, ?_⟩
  exact (fifo_assignment 1 [PoolEvent.submit 0, PoolEvent.complete 0 true 1,
      PoolEvent.submit 2]).2 0 1 (by decide) _ _ (by decide) (by decide)

/-- In `[0 % N, 1 % N, …, (k*N - 1) % N]` every residue `i < N` occurs
exactly `k` times. -/
theorem count_range_mod (N k i : Nat) (h : i < N) :
    (((List.range (k * N)).map (fun j => j % N)).count i) = k := by
  induction k with
  | zero => simp
  | succ m ih =>
    rw [Nat.succ_mul, List.range_add, List.map_append, List.count_append, ih]
    rw [List.map_map]
    have hmap : (List.range N).map ((fun j => j % N) ∘ (fun j => m * N + j))
        = List.range N := by
      have hcg : ∀ j ∈ List.range N,
          ((fun j => j % N) ∘ (fun j => m * N + j)) j = id j := by
        intro j hj
        simp only [Function.comp, id]
        rw [Nat.add_comm, Nat.add_mul_mod_self_right]
        exact Nat.mod_eq_of_lt (List.mem_range.mp hj)
      rw [List.map_congr_left hcg, List.map_id]
    rw [hmap, List.count_eq_one_of_mem (List.nodup_range N)
      (List.mem_range.mpr h)]

/-- C5: `nextWorker` advances the rotation cursor by exactly one slot per
assignment, wrapping modulo the pool size, whatever the assigned job later
does; consequently, in any execution in which `k * n` assignments have
been made (e.g. `k * n` jobs submitted one at a time), each of the `n`
sandboxes has been selected by the cursor exactly `k` times, regardless
of individual job durations. -/
theorem roundRobin_fairness (n k : Nat) (events : List PoolEvent) :
    (∀ (s : PoolState) (job : Job) (now : Nat),
        (startJob now job s).cursor = (s.cursor + 1) % s.poolSize)
    ∧ ((runPool n events).assigned.length = k * n →
        ∀ i, i < n →
          ((runPool n events).assigned.map Assignment.workerIndex).count i
            = k) := by
  refine ⟨fun s job now => rfl, fun hlen i hi => ?_⟩
  have hW := (poolInv_runPool n events).workerIdxEq
  rw [runPool_poolSize] at hW
  rw [hW, hlen]
  exact count_range_mod n k i hi

/-- Witness for C5: two sandboxes, two jobs submitted one at a time —
each sandbox was selected exactly once. -/
theorem roundRobin_fairness_witness :
    ((runPool 2 [PoolEvent.submit 0, PoolEvent.submit 0]).assigned.map
        Assignment.workerIndex).count 0 = 1
    ∧ ((runPool 2 [PoolEvent.submit 0, PoolEvent.submit 0]).assigned.map
        Assignment.workerIndex).count 1 = 1 :=
  ⟨(roundRobin_fairness 2 1 [PoolEvent.submit 0, PoolEvent.submit 0]).2
      (by decide) 0 (by decide),
   (roundRobin_fairness 2 1 [PoolEvent.submit 0, PoolEvent.submit 0]).2
      (by decide) 1 (by decide)⟩

/-- C6: at every point of every execution, `stats().activeWorkers +
stats().queueLength` equals the number of jobs submitted whose result
futures have not yet been resolved (`nextId` counts submissions,
`resolved` counts resolutions). -/
theorem stats_accounting (n : Nat) (events : List PoolEvent) :
    (getStats (runPool n events)).activeWorkers
      + (getStats (runPool n events)).queueLength
      + (runPool n events).resolved
      = (runPool n events).nextId := by
  have h1 := (poolInv_runPool n events).activeEq
  have h2 := (poolInv_runPool n events).runsEq
  have h3 := (poolInv_runPool n events).nextIdEq
  have h4 := (poolInv_runPool n events).resolvedEq
  simp only [getStats]
  omega

/-- C10: completion bookkeeping and its timing.  When an in-flight job
`j` completes — successfully or not — `totalRuns` is incremented by one
and the job's duration is added to the run-time numerator, so failures
count as runs; only a failure bumps `errorCount`; `lastRunAt` is stamped
(and is `none` exactly until the first completion).  The queue-wait
numerator always equals the waits of *all* assignments ever made (it is
accrued at assignment time, via `startJob`, which leaves `totalRuns`
untouched), while the `totalRuns` denominator counts only completed
assignments — so a snapshot taken with jobs in flight divides waits of
not-yet-completed jobs by the count of completed ones. -/
theorem stats_semantics (n : Nat) (events : List PoolEvent) (j : Nat)
    (b : Bool) (now : Nat) (a : Assignment)
    (ha : (runPool n events).inFlight.find? (fun x => x.jobId == j)
        = some a) :
    (applyEvent (.complete j b now) (runPool n events)).totalRuns
        = (runPool n events).totalRuns + 1
    ∧ (applyEvent (.complete j b now) (runPool n events)).totalRunTimeMs
        = (runPool n events).totalRunTimeMs + (now - a.start)
    ∧ (applyEvent (.complete j b now) (runPool n events)).errorCount
        = (runPool n events).errorCount + (if b then 0 else 1)
    ∧ (applyEvent (.complete j b now) (runPool n events)).lastRunAt = some now
    ∧ ((runPool n events).lastRunAt = none
        ↔ (runPool n events).totalRuns = 0)
    ∧ (runPool n events).totalRuns + (runPool n events).inFlight.length
        = (runPool n events).assigned.length
    ∧ (runPool n events).totalQueueWaitMs
        = ((runPool n events).assigned.map Assignment.queueWait).sum
    ∧ ((runPool n events).totalRuns ≠ 0 →
        (getStats (runPool n events)).avgQueueWaitMs
          = (((runPool n events).assigned.map Assignment.queueWait).sum : ℚ)
              / (runPool n events).totalRuns)
    ∧ (∀ (t : PoolState) (job : Job) (m : Nat),
        (startJob m job t).totalQueueWaitMs
            = t.totalQueueWaitMs + (m - job.enqueuedAt)
        ∧ (startJob m job t).totalRuns = t.totalRuns) := by
  refine ⟨?_, ?_, ?_, ?_, (poolInv_runPool n events).lastRunIff,
    (poolInv_runPool n events).runsEq, (poolInv_runPool n events).queueWaitEq,
    ?_, fun t job m => ⟨rfl, rfl⟩⟩
  · simp only [applyEvent, ha, drain]
    rw [(drainFuel_frozen _ _ _).2.1]
  · simp only [applyEvent, ha, drain]
    rw [(drainFuel_frozen _ _ _).2.2.1]
  · simp only [applyEvent, ha, drain]
    rw [(drainFuel_frozen _ _ _).2.2.2.1]
  · simp only [applyEvent, ha, drain]
    rw [(drainFuel_frozen _ _ _).2.2.2.2.1]
  · intro hne
    simp [getStats, hne, (poolInv_runPool n events).queueWaitEq]

/-- Witness for C10: two sandboxes, two submitted jobs; job 0 fails at
time 5 — `totalRuns` rises by one and `errorCount` rises by one. -/
theorem stats_semantics_witness :
    (applyEvent (.complete 0 false 5)
        (runPool 2 [PoolEvent.submit 0, PoolEvent.submit 0])).totalRuns
      = (runPool 2 [PoolEvent.submit 0, PoolEvent.submit 0]).totalRuns + 1
    ∧ (applyEvent (.complete 0 false 5)
        (runPool 2 [PoolEvent.submit 0, PoolEvent.submit 0])).errorCount
      = (runPool 2 [PoolEvent.submit 0, PoolEvent.submit 0]).errorCount + 1 := by
  have h := stats_semantics 2 [PoolEvent.submit 0, PoolEvent.submit 0] 0 false 5
    ⟨0, 0, 0, 0⟩ (by decide)
  exact ⟨h.1, by simpa using h.2.2.1⟩

end AlgoCoach
